import Mathlib

/-!
# Verification of the continuous-time HIV cohort model

Shallow embedding of `ct_hiv_model_econ_eval/model_classes.py` and
`ct_hiv_model_econ_eval/input_data.py`.  Simulation times, costs and
utilities are modelled as real numbers.  The Gillespie event sampler and
the present-value / sample-path helpers live in the external `deampy`
library, so they are modelled from the specification where needed and
abstracted as explicit inputs elsewhere.
-/

set_option autoImplicit false

namespace CtHiv

/-- The `HealthStates` enumeration of `input_data.py` (lines 12-18). -/
inductive HealthStates : Type
  | CD4_200to500
  | CD4_200
  | AIDS
  | HIV_DEATH
  | NATUAL_DEATH
  deriving DecidableEq, Repr

/-- Embedding of `HealthStates.value`: the integer value carried by each enum member. -/
def HealthStates.value : HealthStates → Nat
  | .CD4_200to500 => 0
  | .CD4_200 => 1
  | .AIDS => 2
  | .HIV_DEATH => 3
  | .NATUAL_DEATH => 4

/-- A state is absorbing when it is one of the two death states
(`HIV_DEATH`, `NATUAL_DEATH`); spec §3 and the comment in
`Patient.simulate` (the Gillespie sampler returns `None` for such
states). -/
def HealthStates.isAbsorbing (s : HealthStates) : Prop :=
  s = HealthStates.HIV_DEATH ∨ s = HealthStates.NATUAL_DEATH

instance (s : HealthStates) : Decidable s.isAbsorbing := by
  unfold HealthStates.isAbsorbing; infer_instance

/-- Embedding of `ANNUAL_STATE_COST` of `input_data.py` (lines 29-34): annual cost of
each health state, one entry per living state plus a single `Dead`
entry. -/
def ANNUAL_STATE_COST : List ℝ := [2756.0, 3025.0, 9007.0, 0]

/-- Embedding of `ANNUAL_STATE_UTILITY` of `input_data.py` (lines 37-42). -/
def ANNUAL_STATE_UTILITY : List ℝ := [0.9, 0.85, 0.75, 0]

/-- The parameter bundle consumed by patients, with the fields that
`model_classes.py` reads from `self.params`
(`initialHealthState`, `annualStateCosts`, `annualTreatmentCost`,
`annualStateUtilities`, `discountRate`; the transition-rate matrix is
consumed only through the Gillespie sampler, which is abstracted as an
explicit input of the simulation).  The defining module
`param_classes.py` is external to the verified sources, so the field
list follows the Parameter Set of the spec (§3). -/
structure Params : Type where
  initialHealthState : HealthStates
  annualStateCosts : List ℝ
  annualTreatmentCost : ℝ
  annualStateUtilities : List ℝ
  discountRate : ℝ

/-- Modelled from the spec: `deampy.econ_eval.pv_continuous_payment`,
absent from the sources.  Spec §4.5: present value of a continuous
constant-rate payment stream over `(t1, t2]` is
`payment × (1 − e^(−discount·Δt)) / discount`, with the
`discount = 0` case special-cased to `payment × Δt`. -/
noncomputable def pv_continuous_payment (payment discount_rate t1 t2 : ℝ) : ℝ :=
  if discount_rate = 0 then
    payment * (t2 - t1)
  else
    payment * (1 - Real.exp (-discount_rate * (t2 - t1))) / discount_rate

/-- Embedding of `PatientCostUtilityMonitor` (model_classes.py lines 91-102):
last recorded time and running discounted totals. -/
structure PatientCostUtilityMonitor : Type where
  tLastRecorded : ℝ
  totalDiscountedCost : ℝ
  totalDiscountedUtility : ℝ

/-- Embedding of `PatientCostUtilityMonitor.__init__`. -/
def initCostUtilityMonitor : PatientCostUtilityMonitor :=
  { tLastRecorded := 0, totalDiscountedCost := 0, totalDiscountedUtility := 0 }

/-- Embedding of `PatientCostUtilityMonitor.update` (model_classes.py lines 104-127):
cost rate is the annual cost of the vacated state plus the annual
treatment cost, utility rate is the annual utility of the state; both
are discounted over `(tLastRecorded, time]` and added to the running
totals.  Python list indexing requires `i` to be in bounds (claim C10);
the embedding uses
`getD` with an irrelevant default for totality. -/
noncomputable def PatientCostUtilityMonitor.update (params : Params) (time : ℝ)
    (current_state : HealthStates) (m : PatientCostUtilityMonitor) :
    PatientCostUtilityMonitor :=
  let cost := params.annualStateCosts.getD current_state.value 0 + params.annualTreatmentCost
  let utility := params.annualStateUtilities.getD current_state.value 0
  { tLastRecorded := time
    totalDiscountedCost :=
      m.totalDiscountedCost + pv_continuous_payment cost params.discountRate m.tLastRecorded time
    totalDiscountedUtility :=
      m.totalDiscountedUtility + pv_continuous_payment utility params.discountRate m.tLastRecorded time }

/-- Embedding of `PatientStateMonitor` (model_classes.py lines 58-66). -/
structure PatientStateMonitor : Type where
  currentState : HealthStates
  survivalTime : Option ℝ
  timeToAIDS : Option ℝ
  costUtilityMonitor : PatientCostUtilityMonitor

/-- Embedding of `PatientStateMonitor.__init__`. -/
def initStateMonitor (params : Params) : PatientStateMonitor :=
  { currentState := params.initialHealthState
    survivalTime := none
    timeToAIDS := none
    costUtilityMonitor := initCostUtilityMonitor }

/-- Embedding of `PatientStateMonitor.update` (model_classes.py lines 68-88):
record survival time on a transition into a death state, record time to
AIDS on the first transition into `AIDS`, delegate to the cost/utility
monitor with the state being vacated, then replace the current state. -/
noncomputable def PatientStateMonitor.update (params : Params) (time : ℝ)
    (new_state : HealthStates) (m : PatientStateMonitor) : PatientStateMonitor :=
  { currentState := new_state
    survivalTime :=
      if new_state = HealthStates.HIV_DEATH ∨ new_state = HealthStates.NATUAL_DEATH then
        some time
      else m.survivalTime
    timeToAIDS :=
      if m.currentState ≠ HealthStates.AIDS ∧ new_state = HealthStates.AIDS then
        some time
      else m.timeToAIDS
    costUtilityMonitor := m.costUtilityMonitor.update params time m.currentState }

/-- The mutable loop state of `Patient.simulate` (model_classes.py
lines 20-55): the clock `t`, the `if_stop` flag and the state monitor
of the patient. -/
structure SimState : Type where
  t : ℝ
  ifStop : Bool
  stateMonitor : PatientStateMonitor

/-- The loop state on entry to the `while` loop of `Patient.simulate`. -/
def initSimState (params : Params) : SimState :=
  { t := 0, ifStop := false, stateMonitor := initStateMonitor params }

/-- One iteration of the `while` loop body of `Patient.simulate`
(model_classes.py lines 31-55), given the result of the sampler for
this step.  The second component records the single `stateMonitor.update`
call made by this iteration, as the pair (update time, state being
vacated) — the arguments the cost/utility monitor receives (claim C10).
`none` from the sampler means the absorbing-state sentinel. -/
noncomputable def simStep (params : Params) (sim_length : ℝ)
    (res : Option (ℝ × HealthStates)) (s : SimState) :
    SimState × Option (ℝ × HealthStates) :=
  match res with
  | none => ({ s with ifStop := true }, none)
  | some (dt, new_state) =>
    if dt + s.t > sim_length then
      ({ t := sim_length
         ifStop := true
         stateMonitor :=
           s.stateMonitor.update params sim_length s.stateMonitor.currentState },
       some (sim_length, s.stateMonitor.currentState))
    else
      ({ t := s.t + dt
         ifStop := s.ifStop
         stateMonitor := s.stateMonitor.update params (s.t + dt) new_state },
       some (s.t + dt, s.stateMonitor.currentState))

/-- Iteration of the `while not if_stop` loop, `n` times of `Patient.simulate`,
driven by a sampler that maps (step index, current state) to the
Gillespie result for that query; the per-patient random stream is folded
into the step index.  Alongside the loop state, the list of all
`stateMonitor.update` calls made so far is collected. -/
noncomputable def simRun (params : Params) (sim_length : ℝ)
    (sampler : ℕ → HealthStates → Option (ℝ × HealthStates)) :
    ℕ → SimState × List (ℝ × HealthStates)
  | 0 => (initSimState params, [])
  | n + 1 =>
    let p := simRun params sim_length sampler n
    if p.1.ifStop then p
    else
      let q := simStep params sim_length (sampler n p.1.stateMonitor.currentState) p.1
      (q.1, p.2 ++ q.2.toList)

/-- A sequence of `PatientCostUtilityMonitor.update` calls, applied in
order: each entry is the (time, current_state) pair of one call. -/
noncomputable def runCostUtilityUpdates (params : Params)
    (m : PatientCostUtilityMonitor) :
    List (ℝ × HealthStates) → PatientCostUtilityMonitor
  | [] => m
  | (time, st) :: rest =>
    runCostUtilityUpdates params (m.update params time st) rest

/-- The update times are non-decreasing, starting from `t0` (the
last recorded time of the monitor). -/
def timesChain (t0 : ℝ) : List (ℝ × HealthStates) → Prop
  | [] => True
  | (time, _) :: rest => t0 ≤ time ∧ timesChain time rest

/-- Embedding of the `CohortOutcomes.__init__` collections (model_classes.py lines
162-174): the per-patient outcome lists (the derived summary-statistic
and plotting objects are external `deampy` values and are not part of
the collections). -/
structure CohortOutcomes : Type where
  survivalTimes : List ℝ
  timesToAIDS : List ℝ
  costs : List ℝ
  utilities : List ℝ

/-- Embedding of `CohortOutcomes.__init__`: all collections start empty. -/
def initCohortOutcomes : CohortOutcomes :=
  { survivalTimes := [], timesToAIDS := [], costs := [], utilities := [] }

/-- Embedding of `CohortOutcomes.extract_outcome` (model_classes.py lines 176-187):
append survival time and time to AIDS only when set; always append the
discounted cost and utility totals. -/
def CohortOutcomes.extract_outcome (o : CohortOutcomes)
    (m : PatientStateMonitor) : CohortOutcomes :=
  { survivalTimes := o.survivalTimes ++ m.survivalTime.toList
    timesToAIDS := o.timesToAIDS ++ m.timeToAIDS.toList
    costs := o.costs ++ [m.costUtilityMonitor.totalDiscountedCost]
    utilities := o.utilities ++ [m.costUtilityMonitor.totalDiscountedUtility] }

/-- The patient ids created by `Cohort.simulate` (model_classes.py
lines 148-151): `id * pop_size + i` for `i in range(pop_size)`.
the stored population size is an integer as passed by the caller, and
the Python range over it is empty when it is non-positive. -/
def cohortPatientIds (id pop_size : ℤ) : List ℤ :=
  (List.range pop_size.toNat).map (fun i : ℕ => id * pop_size + (i : ℤ))

/-- The terminal state monitor of one simulated patient.  `streams`
maps a seed to the sampler-result sequence of that patient: the numpy
generator `RandomState(seed)` is deterministic, so the whole
per-patient random stream is a function of the patient id (spec §3, §5).  `fuel` bounds
the number of loop iterations unrolled. -/
noncomputable def simulatedPatientMonitor (params : Params) (sim_length : ℝ)
    (streams : ℤ → ℕ → HealthStates → Option (ℝ × HealthStates))
    (fuel : ℕ) (patient_id : ℤ) : PatientStateMonitor :=
  (simRun params sim_length (streams patient_id) fuel).1.stateMonitor

/-- The per-patient loop of `Cohort.simulate` (model_classes.py lines
142-157): simulate each patient of the cohort in order and extract its
outcomes into the cohort collections. -/
noncomputable def cohortSimulate (id pop_size : ℤ) (params : Params)
    (sim_length : ℝ)
    (streams : ℤ → ℕ → HealthStates → Option (ℝ × HealthStates))
    (fuel : ℕ) : CohortOutcomes :=
  ((cohortPatientIds id pop_size).map
      (simulatedPatientMonitor params sim_length streams fuel)).foldl
    CohortOutcomes.extract_outcome initCohortOutcomes

/-- Embedding of `Cohort` (model_classes.py lines 130-140). -/
structure Cohort : Type where
  id : ℤ
  popSize : ℤ
  params : Params

/-- Embedding of `Cohort.__init__` (model_classes.py lines 131-140): the arguments
are stored unchanged; no validation is performed. -/
def cohortInit (id pop_size : ℤ) (parameters : Params) : Cohort :=
  { id := id, popSize := pop_size, params := parameters }

/-- Modelled from the spec: the deampy class `PrevalencePathBatchUpdate`
(absent from the sources) as used in
`CohortOutcomes.calculate_cohort_outcomes` (model_classes.py lines
200-206) — "a step function of living-population count over time,
starting at the initial population size and decrementing by one at each
recorded survival time, sorted ascending in time" (spec §4.7).  The
value at time `t` is the initial size minus the number of recorded
survival times that have occurred by `t`. -/
noncomputable def livingPopulation (initial_size : ℕ)
    (times_of_changes : List ℝ) (t : ℝ) : ℤ :=
  (initial_size : ℤ) - ((times_of_changes.filter (fun u => u ≤ t)).length : ℤ)

/-- A concrete parameter bundle (the `input_data.py` constants with a
zero treatment cost and zero discount rate), used to instantiate
theorems at concrete inputs. -/
def testParams : Params :=
  { initialHealthState := HealthStates.CD4_200to500
    annualStateCosts := ANNUAL_STATE_COST
    annualTreatmentCost := 0
    annualStateUtilities := ANNUAL_STATE_UTILITY
    discountRate := 0 }

/-! ## Claim C1: the three branches of one `Patient.simulate` step -/

/-- C1.  Per simulation step of `Patient.simulate`: on the
"no further events" sentinel of the sampler the process stops with no monitor update;
when `t + dt` exceeds `sim_length`, `t` is clamped to `sim_length`, the
destination is replaced by the current state, exactly one monitor
update is applied at the clamped time, and the process stops; otherwise
`t` advances by `dt`, exactly one monitor update with the sampled
destination is applied, and the stop flag is left unchanged. -/
theorem simStep_cases (params : Params) (sim_length : ℝ) (s : SimState) :
    simStep params sim_length none s = ({ s with ifStop := true }, none) ∧
    (∀ dt new_state : _, dt + s.t > sim_length →
      simStep params sim_length (some (dt, new_state)) s =
        ({ t := sim_length
           ifStop := true
           stateMonitor :=
             s.stateMonitor.update params sim_length s.stateMonitor.currentState },
         some (sim_length, s.stateMonitor.currentState))) ∧
    (∀ dt new_state : _, ¬ dt + s.t > sim_length →
      simStep params sim_length (some (dt, new_state)) s =
        ({ t := s.t + dt
           ifStop := s.ifStop
           stateMonitor := s.stateMonitor.update params (s.t + dt) new_state },
         some (s.t + dt, s.stateMonitor.currentState))) := by
  refine ⟨rfl, ?_, ?_⟩
  · intro dt new_state h
    simp [simStep, if_pos h]
  · intro dt new_state h
    simp [simStep, if_neg h]

/-- Witness for C1 at a concrete step: horizon 0, initial state,
clamp branch instantiated at `dt = 1` (so `1 + 0 > 0` holds). -/
theorem simStep_cases_witness :
    (1 : ℝ) + (initSimState testParams).t > 0 ∧
    simStep testParams 0 (some (1, HealthStates.AIDS)) (initSimState testParams) =
      ({ t := 0
         ifStop := true
         stateMonitor :=
           (initSimState testParams).stateMonitor.update testParams 0
             (initSimState testParams).stateMonitor.currentState },
       some (0, (initSimState testParams).stateMonitor.currentState)) :=
  ⟨by simp [initSimState], (simStep_cases testParams 0 (initSimState testParams)).2.1 1
    HealthStates.AIDS (by simp [initSimState])⟩

/-! ## Claim C2: the state monitor bills the vacated state, then moves -/

/-- C2.  On every `PatientStateMonitor.update(time, new_state)` call,
the cost/utility monitor is invoked with the state being vacated (the
current state of the monitor before the update) and the update time,
and the current state of the resulting monitor is `new_state`. -/
theorem stateMonitor_update_vacated (params : Params) (time : ℝ)
    (new_state : HealthStates) (m : PatientStateMonitor) :
    (m.update params time new_state).costUtilityMonitor =
      m.costUtilityMonitor.update params time m.currentState ∧
    (m.update params time new_state).currentState = new_state :=
  ⟨rfl, rfl⟩

/-! ## Claim C3: discounted totals are non-decreasing and start at zero -/

/-- The present value of a non-negative payment over a non-empty forward
interval is non-negative, for every discount rate. -/
theorem pv_continuous_payment_nonneg (payment r t1 t2 : ℝ)
    (hp : 0 ≤ payment) (h : t1 ≤ t2) :
    0 ≤ pv_continuous_payment payment r t1 t2 := by
  unfold pv_continuous_payment
  rcases eq_or_ne r 0 with h0 | h0
  · rw [if_pos h0]
    exact mul_nonneg hp (by linarith)
  · rw [if_neg h0]
    rcases lt_or_gt_of_ne h0 with hneg | hpos
    · apply div_nonneg_of_nonpos
      · refine mul_nonpos_iff.mpr (Or.inl ⟨hp, ?_⟩)
        have h1 : (1 : ℝ) ≤ Real.exp (-r * (t2 - t1)) := by
          rw [← Real.exp_zero]
          exact Real.exp_le_exp.mpr (mul_nonneg (by linarith) (by linarith))
        linarith
      · linarith
    · apply div_nonneg
      · refine mul_nonneg hp ?_
        have h1 : Real.exp (-r * (t2 - t1)) ≤ 1 := by
          rw [← Real.exp_zero]
          refine Real.exp_le_exp.mpr ?_
          have := mul_nonneg (le_of_lt hpos) (sub_nonneg.mpr h)
          nlinarith
        linarith
      · linarith

/-- The present value over an empty interval is zero. -/
theorem pv_continuous_payment_self (payment r t : ℝ) :
    pv_continuous_payment payment r t t = 0 := by
  unfold pv_continuous_payment
  rcases eq_or_ne r 0 with h0 | h0
  · rw [if_pos h0]; ring
  · rw [if_neg h0]
    simp [sub_self]

/-- One accumulator update with non-negative flow rates and a
non-retrograde time never decreases either total, and moves the last
recorded time to the update time. -/
theorem costUtility_update_step (params : Params) (time : ℝ)
    (st : HealthStates) (m : PatientCostUtilityMonitor)
    (hc : ∀ s : HealthStates,
      0 ≤ params.annualStateCosts.getD s.value 0 + params.annualTreatmentCost)
    (hu : ∀ s : HealthStates, 0 ≤ params.annualStateUtilities.getD s.value 0)
    (h : m.tLastRecorded ≤ time) :
    m.totalDiscountedCost ≤ (m.update params time st).totalDiscountedCost ∧
    m.totalDiscountedUtility ≤ (m.update params time st).totalDiscountedUtility ∧
    (m.update params time st).tLastRecorded = time := by
  refine ⟨?_, ?_, rfl⟩
  · have := pv_continuous_payment_nonneg
      (params.annualStateCosts.getD st.value 0 + params.annualTreatmentCost)
      params.discountRate m.tLastRecorded time (hc st) h
    simp only [PatientCostUtilityMonitor.update]
    linarith
  · have := pv_continuous_payment_nonneg
      (params.annualStateUtilities.getD st.value 0)
      params.discountRate m.tLastRecorded time (hu st) h
    simp only [PatientCostUtilityMonitor.update]
    linarith

/-- Running a chain of updates with non-decreasing times never
decreases either total. -/
theorem runCostUtilityUpdates_monotone (params : Params)
    (hc : ∀ s : HealthStates,
      0 ≤ params.annualStateCosts.getD s.value 0 + params.annualTreatmentCost)
    (hu : ∀ s : HealthStates, 0 ≤ params.annualStateUtilities.getD s.value 0) :
    ∀ (us : List (ℝ × HealthStates)) (m : PatientCostUtilityMonitor),
      timesChain m.tLastRecorded us →
      m.totalDiscountedCost ≤
        (runCostUtilityUpdates params m us).totalDiscountedCost ∧
      m.totalDiscountedUtility ≤
        (runCostUtilityUpdates params m us).totalDiscountedUtility
  | [], m, _ => ⟨le_refl _, le_refl _⟩
  | (time, st) :: rest, m, hchain => by
    obtain ⟨hle, hrest⟩ := hchain
    obtain ⟨hcost, hutil, htime⟩ := costUtility_update_step params time st m hc hu hle
    have ih := runCostUtilityUpdates_monotone params hc hu rest
      (m.update params time st) (htime ▸ hrest)
    exact ⟨le_trans hcost ih.1, le_trans hutil ih.2⟩

/-- Prefix monotonicity: extending a chain of updates never decreases
either total. -/
theorem runCostUtilityUpdates_append_mono (params : Params)
    (hc : ∀ s : HealthStates,
      0 ≤ params.annualStateCosts.getD s.value 0 + params.annualTreatmentCost)
    (hu : ∀ s : HealthStates, 0 ≤ params.annualStateUtilities.getD s.value 0) :
    ∀ (us vs : List (ℝ × HealthStates)) (m : PatientCostUtilityMonitor),
      timesChain m.tLastRecorded (us ++ vs) →
      (runCostUtilityUpdates params m us).totalDiscountedCost ≤
        (runCostUtilityUpdates params m (us ++ vs)).totalDiscountedCost ∧
      (runCostUtilityUpdates params m us).totalDiscountedUtility ≤
        (runCostUtilityUpdates params m (us ++ vs)).totalDiscountedUtility
  | [], vs, m, hchain => by
    simpa [runCostUtilityUpdates] using
      runCostUtilityUpdates_monotone params hc hu vs m hchain
  | (time, st) :: us, vs, m, hchain => by
    obtain ⟨hle, hrest⟩ := hchain
    have htime : (m.update params time st).tLastRecorded = time := rfl
    exact runCostUtilityUpdates_append_mono params hc hu us vs
      (m.update params time st) (htime ▸ hrest)

/-- A chain of updates all at time 0 leaves the freshly initialized
accumulator at zero totals and last-recorded time 0. -/
theorem runCostUtilityUpdates_zero (params : Params) :
    ∀ (us : List (ℝ × HealthStates)) (m : PatientCostUtilityMonitor),
      m.tLastRecorded = 0 → m.totalDiscountedCost = 0 →
      m.totalDiscountedUtility = 0 → (∀ u ∈ us, u.1 = 0) →
      (runCostUtilityUpdates params m us).totalDiscountedCost = 0 ∧
      (runCostUtilityUpdates params m us).totalDiscountedUtility = 0
  | [], m, _, hcost, hutil, _ => ⟨hcost, hutil⟩
  | (time, st) :: rest, m, htime, hcost, hutil, hall => by
    have h0 : time = 0 := hall (time, st) (List.mem_cons_self _ _)
    refine runCostUtilityUpdates_zero params rest (m.update params time st)
      h0 ?_ ?_ (fun u hu => hall u (List.mem_cons_of_mem _ hu))
    · simp only [PatientCostUtilityMonitor.update, hcost, htime, h0,
        pv_continuous_payment_self, add_zero]
    · simp only [PatientCostUtilityMonitor.update, hutil, htime, h0,
        pv_continuous_payment_self, add_zero]

/-- C3.  For non-negative per-state cost and utility rates and a
non-decreasing sequence of update times, the discounted totals of the
accumulator start at zero, are non-decreasing along the update sequence, and
stay zero while the clock is still at time 0. -/
theorem costUtility_totals_monotone (params : Params)
    (us vs : List (ℝ × HealthStates))
    (hc : ∀ s : HealthStates,
      0 ≤ params.annualStateCosts.getD s.value 0 + params.annualTreatmentCost)
    (hu : ∀ s : HealthStates, 0 ≤ params.annualStateUtilities.getD s.value 0)
    (hchain : timesChain initCostUtilityMonitor.tLastRecorded (us ++ vs)) :
    initCostUtilityMonitor.totalDiscountedCost = 0 ∧
    initCostUtilityMonitor.totalDiscountedUtility = 0 ∧
    (runCostUtilityUpdates params initCostUtilityMonitor us).totalDiscountedCost ≤
      (runCostUtilityUpdates params initCostUtilityMonitor (us ++ vs)).totalDiscountedCost ∧
    (runCostUtilityUpdates params initCostUtilityMonitor us).totalDiscountedUtility ≤
      (runCostUtilityUpdates params initCostUtilityMonitor (us ++ vs)).totalDiscountedUtility ∧
    ((∀ u ∈ us ++ vs, (u : ℝ × HealthStates).1 = 0) →
      (runCostUtilityUpdates params initCostUtilityMonitor (us ++ vs)).totalDiscountedCost = 0 ∧
      (runCostUtilityUpdates params initCostUtilityMonitor (us ++ vs)).totalDiscountedUtility = 0) := by
  obtain ⟨h1, h2⟩ := runCostUtilityUpdates_append_mono params hc hu us vs
    initCostUtilityMonitor hchain
  exact ⟨rfl, rfl, h1, h2,
    runCostUtilityUpdates_zero params (us ++ vs) initCostUtilityMonitor rfl rfl rfl⟩

/-- A parameter bundle with zero rates, used to instantiate theorems
whose hypotheses require non-negative rates. -/
def zeroParams : Params :=
  { initialHealthState := HealthStates.CD4_200to500
    annualStateCosts := [0, 0, 0, 0]
    annualTreatmentCost := 0
    annualStateUtilities := [0, 0, 0, 0]
    discountRate := 0 }

/-- Witness for C3 at a concrete two-update chain (times 0 then 1)
with the zero-rate parameter bundle. -/
theorem costUtility_totals_monotone_witness :
    initCostUtilityMonitor.totalDiscountedCost = 0 ∧
    initCostUtilityMonitor.totalDiscountedUtility = 0 ∧
    (runCostUtilityUpdates zeroParams initCostUtilityMonitor
        [(0, HealthStates.CD4_200to500)]).totalDiscountedCost ≤
      (runCostUtilityUpdates zeroParams initCostUtilityMonitor
        ([(0, HealthStates.CD4_200to500)] ++ [(1, HealthStates.AIDS)])).totalDiscountedCost ∧
    (runCostUtilityUpdates zeroParams initCostUtilityMonitor
        [(0, HealthStates.CD4_200to500)]).totalDiscountedUtility ≤
      (runCostUtilityUpdates zeroParams initCostUtilityMonitor
        ([(0, HealthStates.CD4_200to500)] ++ [(1, HealthStates.AIDS)])).totalDiscountedUtility ∧
    ((∀ u ∈ [(0, HealthStates.CD4_200to500)] ++ [((1 : ℝ), HealthStates.AIDS)],
        (u : ℝ × HealthStates).1 = 0) →
      (runCostUtilityUpdates zeroParams initCostUtilityMonitor
        ([(0, HealthStates.CD4_200to500)] ++ [(1, HealthStates.AIDS)])).totalDiscountedCost = 0 ∧
      (runCostUtilityUpdates zeroParams initCostUtilityMonitor
        ([(0, HealthStates.CD4_200to500)] ++ [(1, HealthStates.AIDS)])).totalDiscountedUtility = 0) :=
  costUtility_totals_monotone zeroParams
    [(0, HealthStates.CD4_200to500)] [(1, HealthStates.AIDS)]
    (by intro s; cases s <;> simp [zeroParams, HealthStates.value])
    (by intro s; cases s <;> simp [zeroParams, HealthStates.value])
    (by simp [timesChain, initCostUtilityMonitor])

/-! ## Claim C4: survival time dominates time to AIDS -/

/-- Loop invariant of `Patient.simulate`: the clock never passes the
horizon, recorded times never exceed the clock, a set survival time
means the current state is absorbing, and a set survival time is at
least the set time to AIDS. -/
structure SimInv (sim_length : ℝ) (s : SimState) : Prop where
  t_le : s.t ≤ sim_length
  aids_le : ∀ ta : ℝ, s.stateMonitor.timeToAIDS = some ta → ta ≤ s.t
  surv_absorbing : s.stateMonitor.survivalTime.isSome = true →
    s.stateMonitor.currentState.isAbsorbing
  aids_le_surv : ∀ ta ts : ℝ, s.stateMonitor.timeToAIDS = some ta →
    s.stateMonitor.survivalTime = some ts → ta ≤ ts

/-- One loop iteration preserves the invariant, provided the sampler
result (when it is not the sentinel) carries a non-negative waiting
time and was produced for a non-absorbing current state. -/
theorem simInv_simStep (params : Params) (len : ℝ) (s : SimState)
    (res : Option (ℝ × HealthStates)) (inv : SimInv len s)
    (hres : ∀ dt ns, res = some (dt, ns) →
      0 ≤ dt ∧ ¬ s.stateMonitor.currentState.isAbsorbing) :
    SimInv len (simStep params len res s).1 := by
  cases res with
  | none =>
    exact ⟨inv.t_le, inv.aids_le, inv.surv_absorbing, inv.aids_le_surv⟩
  | some p =>
    obtain ⟨dt, ns⟩ := p
    obtain ⟨hdt0, hnabs⟩ := hres dt ns rfl
    have hnabs' : ¬ (s.stateMonitor.currentState = HealthStates.HIV_DEATH ∨
        s.stateMonitor.currentState = HealthStates.NATUAL_DEATH) := hnabs
    have hsurvnone : s.stateMonitor.survivalTime = none := by
      cases h : s.stateMonitor.survivalTime with
      | none => rfl
      | some ts =>
        exact absurd (inv.surv_absorbing (by rw [h]; rfl)) hnabs
    by_cases hcl : dt + s.t > len
    · simp only [simStep, if_pos hcl]
      refine ⟨le_refl _, ?_, ?_, ?_⟩
      · intro ta hta
        simp only [PatientStateMonitor.update] at hta
        rw [if_neg (fun hand => hand.1 hand.2)] at hta
        exact le_trans (inv.aids_le ta hta) inv.t_le
      · intro hsome
        simp only [PatientStateMonitor.update] at hsome
        rw [if_neg hnabs', hsurvnone] at hsome
        simp at hsome
      · intro ta ts _ hts
        simp only [PatientStateMonitor.update] at hts
        rw [if_neg hnabs', hsurvnone] at hts
        simp at hts
    · simp only [simStep, if_neg hcl]
      have htle : s.t + dt ≤ len := by linarith [not_lt.mp hcl]
      refine ⟨htle, ?_, ?_, ?_⟩
      · intro ta hta
        simp only [PatientStateMonitor.update] at hta
        by_cases hA : s.stateMonitor.currentState ≠ HealthStates.AIDS ∧
            ns = HealthStates.AIDS
        · rw [if_pos hA] at hta
          exact le_of_eq (Option.some_injective _ hta).symm
        · rw [if_neg hA] at hta
          exact le_trans (inv.aids_le ta hta) (le_add_of_nonneg_right hdt0)
      · intro hsome
        simp only [PatientStateMonitor.update] at hsome ⊢
        by_cases hD : ns = HealthStates.HIV_DEATH ∨ ns = HealthStates.NATUAL_DEATH
        · exact hD
        · rw [if_neg hD, hsurvnone] at hsome
          simp at hsome
      · intro ta ts hta hts
        simp only [PatientStateMonitor.update] at hta hts
        by_cases hD : ns = HealthStates.HIV_DEATH ∨ ns = HealthStates.NATUAL_DEATH
        · rw [if_pos hD] at hts
          have hts' : ts = s.t + dt := (Option.some_injective _ hts).symm
          by_cases hA : s.stateMonitor.currentState ≠ HealthStates.AIDS ∧
              ns = HealthStates.AIDS
          · rw [if_pos hA] at hta
            rw [hts', ← (Option.some_injective _ hta)]
          · rw [if_neg hA] at hta
            rw [hts']
            exact le_trans (inv.aids_le ta hta) (by linarith)
        · rw [if_neg hD, hsurvnone] at hts
          simp at hts

/-- The invariant holds after any number of loop iterations, for any
sampler that returns the sentinel on absorbing states and non-negative
waiting times otherwise. -/
theorem simRun_inv (params : Params) (len : ℝ)
    (sampler : ℕ → HealthStates → Option (ℝ × HealthStates))
    (hlen : 0 ≤ len)
    (habs : ∀ (n : ℕ) (st : HealthStates), st.isAbsorbing → sampler n st = none)
    (hdt : ∀ (n : ℕ) (st : HealthStates) (dt : ℝ) (ns : HealthStates),
      sampler n st = some (dt, ns) → 0 ≤ dt) :
    ∀ n : ℕ, SimInv len (simRun params len sampler n).1
  | 0 => by
    refine ⟨hlen, ?_, ?_, ?_⟩
    · intro ta hta; simp [simRun, initSimState, initStateMonitor] at hta
    · intro hsome; simp [simRun, initSimState, initStateMonitor] at hsome
    · intro ta ts hta _; simp [simRun, initSimState, initStateMonitor] at hta
  | n + 1 => by
    have ih := simRun_inv params len sampler hlen habs hdt n
    simp only [simRun]
    by_cases hstop : (simRun params len sampler n).1.ifStop
    · simp only [if_pos hstop]
      exact ih
    · simp only [if_neg hstop]
      refine simInv_simStep params len _ _ ih ?_
      intro dt ns heq
      refine ⟨hdt n _ dt ns heq, ?_⟩
      intro habs'
      rw [habs n _ habs'] at heq
      exact Option.noConfusion heq

/-- C4.  At any point of `Patient.simulate` (in particular at its end),
if both the survival time and the time to AIDS are set, the survival
time is at least the time to AIDS.  The sampler is assumed to return
the absorbing-state sentinel on absorbing states and non-negative
waiting times otherwise, as the Gillespie sampler does. -/
theorem survivalTime_ge_timeToAIDS (params : Params) (len : ℝ)
    (sampler : ℕ → HealthStates → Option (ℝ × HealthStates))
    (hlen : 0 ≤ len)
    (habs : ∀ (n : ℕ) (st : HealthStates), st.isAbsorbing → sampler n st = none)
    (hdt : ∀ (n : ℕ) (st : HealthStates) (dt : ℝ) (ns : HealthStates),
      sampler n st = some (dt, ns) → 0 ≤ dt)
    (n : ℕ) (ta ts : ℝ)
    (hta : (simRun params len sampler n).1.stateMonitor.timeToAIDS = some ta)
    (hts : (simRun params len sampler n).1.stateMonitor.survivalTime = some ts) :
    ta ≤ ts :=
  (simRun_inv params len sampler hlen habs hdt n).aids_le_surv ta ts hta hts

/-- A concrete sampler: progress to AIDS after one year, then to HIV
death after one more year; the sentinel on the death states. -/
noncomputable def progressSampler : ℕ → HealthStates → Option (ℝ × HealthStates) :=
  fun _ st =>
    match st with
    | HealthStates.AIDS => some (1, HealthStates.HIV_DEATH)
    | HealthStates.HIV_DEATH => none
    | HealthStates.NATUAL_DEATH => none
    | _ => some (1, HealthStates.AIDS)

/-- The concrete sampler returns the sentinel on absorbing states. -/
theorem progressSampler_absorbing (n : ℕ) (st : HealthStates)
    (h : st.isAbsorbing) : progressSampler n st = none := by
  rcases h with h | h <;> subst h <;> rfl

/-- The waiting times of the concrete sampler are non-negative. -/
theorem progressSampler_dt_nonneg (n : ℕ) (st : HealthStates) (dt : ℝ)
    (ns : HealthStates) (h : progressSampler n st = some (dt, ns)) : 0 ≤ dt := by
  cases st <;> simp [progressSampler] at h <;> simp [← h.1]

/-- Witness for C4: with the concrete sampler and horizon 5, after
three loop iterations the patient has time to AIDS 1 and survival time
2, and indeed 1 ≤ 2. -/
theorem survivalTime_ge_timeToAIDS_witness :
    (simRun testParams 5 progressSampler 3).1.stateMonitor.timeToAIDS = some 1 ∧
    (simRun testParams 5 progressSampler 3).1.stateMonitor.survivalTime = some 2 ∧
    (1 : ℝ) ≤ 2 := by
  have hta : (simRun testParams 5 progressSampler 3).1.stateMonitor.timeToAIDS = some 1 := by
    norm_num [simRun, simStep, progressSampler, testParams, initSimState,
      initStateMonitor, PatientStateMonitor.update]
    exact fun h => HealthStates.noConfusion h
  have hts : (simRun testParams 5 progressSampler 3).1.stateMonitor.survivalTime = some 2 := by
    norm_num [simRun, simStep, progressSampler, testParams, initSimState,
      initStateMonitor, PatientStateMonitor.update]
  exact ⟨hta, hts, survivalTime_ge_timeToAIDS testParams 5 progressSampler
    (by norm_num) progressSampler_absorbing progressSampler_dt_nonneg 3 1 2 hta hts⟩

/-! ## Claim C10: the accumulator is only ever billed a non-absorbing state -/

/-- The monitor-update call recorded by one loop iteration, if any,
carries the state being vacated — the current state of the loop state. -/
theorem simStep_call (params : Params) (len : ℝ)
    (res : Option (ℝ × HealthStates)) (s : SimState) :
    (simStep params len res s).2 = none ∨
    ∃ time : ℝ, (simStep params len res s).2 =
      some (time, s.stateMonitor.currentState) := by
  cases res with
  | none => exact Or.inl rfl
  | some p =>
    obtain ⟨dt, ns⟩ := p
    by_cases hcl : dt + s.t > len
    · exact Or.inr ⟨len, by simp only [simStep, if_pos hcl]⟩
    · exact Or.inr ⟨s.t + dt, by simp only [simStep, if_neg hcl]⟩

/-- Every monitor-update call recorded during a run was made from a
non-absorbing current state, for any sampler that returns the sentinel
on absorbing states. -/
theorem simRun_calls_nonabsorbing (params : Params) (len : ℝ)
    (sampler : ℕ → HealthStates → Option (ℝ × HealthStates))
    (habs : ∀ (n : ℕ) (st : HealthStates), st.isAbsorbing → sampler n st = none) :
    ∀ n : ℕ, ∀ c ∈ (simRun params len sampler n).2,
      ¬ (c : ℝ × HealthStates).2.isAbsorbing
  | 0 => by simp [simRun]
  | n + 1 => by
    have ih := simRun_calls_nonabsorbing params len sampler habs n
    simp only [simRun]
    by_cases hstop : (simRun params len sampler n).1.ifStop
    · simp only [if_pos hstop]
      exact ih
    · simp only [if_neg hstop]
      intro c hc
      rcases List.mem_append.mp hc with h | h
      · exact ih c h
      · set s := (simRun params len sampler n).1 with hs
        cases hres : sampler n s.stateMonitor.currentState with
        | none =>
          rw [hres] at h
          simp [simStep] at h
        | some p =>
          rw [hres] at h
          have hnabs : ¬ s.stateMonitor.currentState.isAbsorbing := by
            intro habs'
            rw [habs n _ habs'] at hres
            exact Option.noConfusion hres
          rcases simStep_call params len (some p) s with hcall | ⟨time, hcall⟩
          · rw [hcall] at h
            simp at h
          · rw [hcall] at h
            simp only [Option.toList_some, List.mem_singleton] at h
            rw [h]
            exact hnabs

/-- C10.  During any run of `Patient.simulate`, every
`PatientCostUtilityMonitor.update` call receives a non-absorbing
vacated state, whose `value` therefore indexes within the bounds of the
length-4 annual cost and utility lists (even though
`NATUAL_DEATH.value = 4` would be out of range). -/
theorem costUtility_calls_in_bounds (params : Params) (len : ℝ)
    (sampler : ℕ → HealthStates → Option (ℝ × HealthStates))
    (habs : ∀ (n : ℕ) (st : HealthStates), st.isAbsorbing → sampler n st = none)
    (n : ℕ) :
    ∀ c ∈ (simRun params len sampler n).2,
      ¬ (c : ℝ × HealthStates).2.isAbsorbing ∧
      (c : ℝ × HealthStates).2.value < ANNUAL_STATE_COST.length ∧
      (c : ℝ × HealthStates).2.value < ANNUAL_STATE_UTILITY.length := by
  intro c hc
  have h1 := simRun_calls_nonabsorbing params len sampler habs n c hc
  refine ⟨h1, ?_, ?_⟩ <;>
  · obtain ⟨time, st⟩ := c
    cases st with
    | HIV_DEATH => exact absurd (Or.inl rfl) h1
    | NATUAL_DEATH => exact absurd (Or.inr rfl) h1
    | _ => simp [HealthStates.value, ANNUAL_STATE_COST, ANNUAL_STATE_UTILITY]

/-- Witness for C10: the run of the concrete sampler makes exactly two
monitor-update calls, billing `CD4_200to500` at time 1 and `AIDS` at
time 2; the state of the first call is non-absorbing and in bounds. -/
theorem costUtility_calls_in_bounds_witness :
    ((1 : ℝ), HealthStates.CD4_200to500) ∈ (simRun testParams 5 progressSampler 3).2 ∧
    (¬ (((1 : ℝ), HealthStates.CD4_200to500) : ℝ × HealthStates).2.isAbsorbing ∧
      (((1 : ℝ), HealthStates.CD4_200to500) : ℝ × HealthStates).2.value <
        ANNUAL_STATE_COST.length ∧
      (((1 : ℝ), HealthStates.CD4_200to500) : ℝ × HealthStates).2.value <
        ANNUAL_STATE_UTILITY.length) := by
  have hmem : ((1 : ℝ), HealthStates.CD4_200to500) ∈
      (simRun testParams 5 progressSampler 3).2 := by
    norm_num [simRun, simStep, progressSampler, testParams, initSimState,
      initStateMonitor, PatientStateMonitor.update]
  exact ⟨hmem, costUtility_calls_in_bounds testParams 5 progressSampler
    progressSampler_absorbing 3 _ hmem⟩

/-! ## Claim C8: termination of the `while` loop -/

/-- A sampler whose (all positive) waiting times form the Zeno sequence
`(1/2)^(n+2)`, never leaving the initial state. -/
noncomputable def zenoSampler : ℕ → HealthStates → Option (ℝ × HealthStates) :=
  fun n _ => some ((1 / 2) ^ (n + 2), HealthStates.CD4_200to500)

/-- Under the Zeno sampler with horizon 1, the loop state after `n`
iterations is still running, with clock `1/2 − (1/2)^(n+1)`. -/
theorem zenoSampler_state :
    ∀ n : ℕ, (simRun testParams 1 zenoSampler n).1.ifStop = false ∧
      (simRun testParams 1 zenoSampler n).1.t = 1 / 2 - (1 / 2) ^ (n + 1)
  | 0 => by
    constructor
    · rfl
    · show (0 : ℝ) = 1 / 2 - (1 / 2) ^ 1
      norm_num
  | n + 1 => by
    obtain ⟨ih1, ih2⟩ := zenoSampler_state n
    have hpos : (0 : ℝ) < (1 / 2 : ℝ) ^ (n + 2) := by positivity
    have hsum : (1 / 2 : ℝ) ^ (n + 2) + (1 / 2 - (1 / 2) ^ (n + 1)) =
        1 / 2 - (1 / 2) ^ (n + 2) := by
      have : (1 / 2 : ℝ) ^ (n + 2) = (1 / 2) ^ (n + 1) * (1 / 2) := by
        rw [← pow_succ]
      rw [this]; ring
    have hcl : ¬ ((1 / 2 : ℝ) ^ (n + 2) + (simRun testParams 1 zenoSampler n).1.t > 1) := by
      rw [ih2, hsum]
      nlinarith
    simp only [simRun, ih1, if_neg (by simp [ih1] : ¬ (simRun testParams 1 zenoSampler n).1.ifStop = true),
      zenoSampler]
    rw [simStep, if_neg hcl]
    refine ⟨ih1, ?_⟩
    show (simRun testParams 1 zenoSampler n).1.t + (1 / 2) ^ (n + 2) =
      1 / 2 - (1 / 2) ^ (n + 1 + 1)
    rw [ih2]
    linarith [hsum]

/-- Counterexample for C8: the horizon 1 is positive and every waiting
time of the Zeno sampler is positive, yet no number of iterations of
the `Patient.simulate` loop ever reaches the stop condition. -/
theorem simulate_zeno_nontermination :
    (0 : ℝ) < 1 ∧
    (∀ (n : ℕ) (st : HealthStates) (dt : ℝ) (ns : HealthStates),
      zenoSampler n st = some (dt, ns) → 0 < dt) ∧
    ¬ ∃ n : ℕ, (simRun testParams 1 zenoSampler n).1.ifStop = true := by
  refine ⟨one_pos, ?_, ?_⟩
  · intro n st dt ns h
    simp only [zenoSampler, Option.some.injEq, Prod.mk.injEq] at h
    rw [← h.1]
    positivity
  · rintro ⟨n, hn⟩
    rw [(zenoSampler_state n).1] at hn
    exact Bool.noConfusion hn

/-- While the loop is still running, the clock has advanced at least
`ε` per iteration and has not passed the horizon, for samplers whose
waiting times are bounded below by `ε`. -/
theorem simRun_progress (params : Params) (len ε : ℝ)
    (sampler : ℕ → HealthStates → Option (ℝ × HealthStates))
    (hlen : 0 ≤ len)
    (hdt : ∀ (n : ℕ) (st : HealthStates) (dt : ℝ) (ns : HealthStates),
      sampler n st = some (dt, ns) → ε ≤ dt) :
    ∀ n : ℕ, (simRun params len sampler n).1.ifStop = false →
      (n : ℝ) * ε ≤ (simRun params len sampler n).1.t ∧
      (simRun params len sampler n).1.t ≤ len
  | 0, _ => by
    constructor
    · simp [simRun, initSimState]
    · exact hlen
  | n + 1, hrun => by
    by_cases hstop : (simRun params len sampler n).1.ifStop
    · rw [simRun, if_pos hstop] at hrun
      exact absurd hrun (by simp [hstop])
    · obtain ⟨ih1, ih2⟩ := simRun_progress params len ε sampler hlen hdt n
        (Bool.not_eq_true _ ▸ hstop)
      rw [simRun, if_neg hstop] at hrun ⊢
      cases hres : sampler n (simRun params len sampler n).1.stateMonitor.currentState with
      | none =>
        simp only [hres, simStep] at hrun
        exact Bool.noConfusion hrun
      | some p =>
        obtain ⟨dt, ns⟩ := p
        have hεdt : ε ≤ dt := hdt n _ dt ns hres
        by_cases hcl : dt + (simRun params len sampler n).1.t > len
        · simp only [hres, simStep, if_pos hcl] at hrun
          exact Bool.noConfusion hrun
        · simp only [hres, simStep, if_neg hcl] at hrun ⊢
          constructor
          · push_cast
            nlinarith
          · linarith [not_lt.mp hcl]

/-- C8 (amended).  For every horizon `sim_length > 0` and every
sequence of sampler results whose waiting times are bounded below by
some `ε > 0`, the `Patient.simulate` loop reaches its stop condition in
a finite number of iterations. -/
theorem simulate_terminates_of_dt_lb (params : Params) (len ε : ℝ)
    (sampler : ℕ → HealthStates → Option (ℝ × HealthStates))
    (hε : 0 < ε) (hlen : 0 < len)
    (hdt : ∀ (n : ℕ) (st : HealthStates) (dt : ℝ) (ns : HealthStates),
      sampler n st = some (dt, ns) → ε ≤ dt) :
    ∃ n : ℕ, (simRun params len sampler n).1.ifStop = true := by
  obtain ⟨N, hN⟩ := exists_nat_gt (len / ε)
  refine ⟨N, ?_⟩
  cases hb : (simRun params len sampler N).1.ifStop with
  | true => rfl
  | false =>
    obtain ⟨h1, h2⟩ := simRun_progress params len ε sampler (le_of_lt hlen) hdt N hb
    have : len < (N : ℝ) * ε := (div_lt_iff₀ hε).mp hN
    linarith

/-- Witness for the amended C8: the all-sentinel sampler with `ε = 1`
and horizon 1 stops (after the very first iteration). -/
theorem simulate_terminates_of_dt_lb_witness :
    ∃ n : ℕ, (simRun testParams 1 (fun _ _ => none) n).1.ifStop = true :=
  simulate_terminates_of_dt_lb testParams 1 1 (fun _ _ => none) one_pos one_pos
    (fun _ _ _ _ h => Option.noConfusion h)

/-! ## Claim C5: censored patients leave no survival/progression entry -/

/-- C5.  `CohortOutcomes.extract_outcome` on a patient whose survival
time and time to AIDS are both unset (a patient censored before
progression or absorption) leaves the survival-time and
time-to-AIDS collections unchanged, while always appending exactly one
discounted-cost entry and one discounted-utility entry. -/
theorem extract_outcome_censored (o : CohortOutcomes) (m : PatientStateMonitor)
    (h1 : m.survivalTime = none) (h2 : m.timeToAIDS = none) :
    (o.extract_outcome m).survivalTimes = o.survivalTimes ∧
    (o.extract_outcome m).timesToAIDS = o.timesToAIDS ∧
    (o.extract_outcome m).costs.length = o.costs.length + 1 ∧
    (o.extract_outcome m).utilities.length = o.utilities.length + 1 := by
  simp [CohortOutcomes.extract_outcome, h1, h2]

/-- Witness for C5: a freshly initialized patient monitor has both
fields unset, and extracting it changes neither censored collection
while appending one cost and one utility entry. -/
theorem extract_outcome_censored_witness :
    (initStateMonitor testParams).survivalTime = none ∧
    (initStateMonitor testParams).timeToAIDS = none ∧
    ((initCohortOutcomes.extract_outcome (initStateMonitor testParams)).survivalTimes =
        initCohortOutcomes.survivalTimes ∧
      (initCohortOutcomes.extract_outcome (initStateMonitor testParams)).timesToAIDS =
        initCohortOutcomes.timesToAIDS ∧
      (initCohortOutcomes.extract_outcome (initStateMonitor testParams)).costs.length =
        initCohortOutcomes.costs.length + 1 ∧
      (initCohortOutcomes.extract_outcome (initStateMonitor testParams)).utilities.length =
        initCohortOutcomes.utilities.length + 1) :=
  ⟨rfl, rfl, extract_outcome_censored initCohortOutcomes (initStateMonitor testParams) rfl rfl⟩

/-! ## Claim C7: determinism and patient-id derivation -/

/-- C7.  Two cohorts with identical id, population size and parameters,
simulated over the same horizon with the same deterministic
seed-to-stream assignment, produce identical outcome collections; and
the patient ids are derived as `cohort_id * pop_size + patient_index`
for the indices `0, …, pop_size − 1` (the sampler stream of each
patient is looked up at exactly that id). -/
theorem cohort_determinism (id pop_size : ℤ) (params : Params) (len : ℝ)
    (fuel : ℕ)
    (streams1 streams2 : ℤ → ℕ → HealthStates → Option (ℝ × HealthStates))
    (h : ∀ seed : ℤ, streams1 seed = streams2 seed) :
    cohortSimulate id pop_size params len streams1 fuel =
      cohortSimulate id pop_size params len streams2 fuel ∧
    cohortPatientIds id pop_size =
      (List.range pop_size.toNat).map (fun i : ℕ => id * pop_size + (i : ℤ)) ∧
    (cohortPatientIds id pop_size).map
        (simulatedPatientMonitor params len streams1 fuel) =
      (cohortPatientIds id pop_size).map (fun patient_id =>
        (simRun params len (streams1 patient_id) fuel).1.stateMonitor) := by
  refine ⟨?_, rfl, rfl⟩
  rw [funext h]

/-- Witness for C7: two syntactically distinct but extensionally equal
stream assignments give identical cohort outcomes. -/
theorem cohort_determinism_witness :
    cohortSimulate 1 2 testParams 5 (fun _ => progressSampler) 3 =
      cohortSimulate 1 2 testParams 5 (fun _seed => progressSampler) 3 ∧
    cohortPatientIds 1 2 =
      (List.range (2 : ℤ).toNat).map (fun i : ℕ => 1 * 2 + (i : ℤ)) ∧
    (cohortPatientIds 1 2).map
        (simulatedPatientMonitor testParams 5 (fun _ => progressSampler) 3) =
      (cohortPatientIds 1 2).map (fun patient_id =>
        (simRun testParams 5 ((fun _ => progressSampler) patient_id) 3).1.stateMonitor) :=
  cohort_determinism 1 2 testParams 5 3 (fun _ => progressSampler)
    (fun _seed => progressSampler) (fun _ => rfl)

/-! ## Claim C9: no validation happens at construction -/

/-- Counterexample for C9: constructing a `Cohort` with the negative
population size −1 succeeds — `Cohort.__init__` has no rejection path
and stores −1 unchanged — and simulating such a cohort iterates over an
empty patient range instead of failing. -/
theorem cohortInit_accepts_negative_pop :
    (cohortInit 0 (-1) testParams).popSize = -1 ∧
    cohortPatientIds 0 (-1) = [] :=
  ⟨rfl, rfl⟩

/-- C9 (amended).  `Cohort` construction performs no validation: every
argument (including a negative population size) is stored unchanged,
and a non-positive population size leads to an empty patient range at
simulation time rather than an error. -/
theorem cohortInit_no_validation (id pop_size : ℤ) (p : Params) :
    (cohortInit id pop_size p).id = id ∧
    (cohortInit id pop_size p).popSize = pop_size ∧
    (cohortInit id pop_size p).params = p ∧
    (pop_size ≤ 0 → cohortPatientIds id pop_size = []) := by
  refine ⟨rfl, rfl, rfl, fun h => ?_⟩
  unfold cohortPatientIds
  rw [Int.toNat_of_nonpos h]
  rfl

/-- Witness for the amended C9 at population size −1. -/
theorem cohortInit_no_validation_witness :
    (-1 : ℤ) ≤ 0 ∧ cohortPatientIds 0 (-1) = [] :=
  ⟨by decide, (cohortInit_no_validation 0 (-1) testParams).2.2.2 (by decide)⟩

/-! ## Claim C6: population conservation of the survival curve -/

/-- Folding patient extractions: the survival-time collection grows by
exactly the number of extracted patients with a set survival time. -/
theorem foldl_extract_survival_count :
    ∀ (ms : List PatientStateMonitor) (o : CohortOutcomes),
      (ms.foldl CohortOutcomes.extract_outcome o).survivalTimes.length =
        o.survivalTimes.length + ms.countP (fun m => m.survivalTime.isSome)
  | [], o => by simp
  | m :: ms, o => by
    rw [List.foldl_cons, foldl_extract_survival_count ms, List.countP_cons]
    have hlen : (o.extract_outcome m).survivalTimes.length =
        o.survivalTimes.length + (if m.survivalTime.isSome then 1 else 0) := by
      cases h : m.survivalTime <;>
        simp [CohortOutcomes.extract_outcome, h]
    rw [hlen]
    by_cases h : m.survivalTime.isSome
    · simp [h]
      omega
    · simp [h]

/-- The cohort creates exactly `pop_size` patient ids (none for a
non-positive population size). -/
theorem cohortPatientIds_length (id pop_size : ℤ) :
    (cohortPatientIds id pop_size).length = pop_size.toNat := by
  rw [cohortPatientIds, List.length_map, List.length_range]

/-- C6.  Population conservation of the survival curve built by
`calculate_cohort_outcomes` from the survival times of a simulated
cohort:
the number of recorded survival times equals the number of patients
whose survival time was set and never exceeds the population size; the
curve starts at the population size (its value before every recorded
time), ends at the population size minus the number of decrements (its
value after every recorded time, each recorded time decrementing by
one), and is never negative. -/
theorem living_population_conservation (id pop_size : ℤ) (params : Params)
    (len : ℝ)
    (streams : ℤ → ℕ → HealthStates → Option (ℝ × HealthStates))
    (fuel : ℕ) (t t' : ℝ)
    (hbefore : ∀ u ∈ (cohortSimulate id pop_size params len streams fuel).survivalTimes,
      t < u)
    (hafter : ∀ u ∈ (cohortSimulate id pop_size params len streams fuel).survivalTimes,
      u ≤ t') :
    (cohortSimulate id pop_size params len streams fuel).survivalTimes.length =
      ((cohortPatientIds id pop_size).map
          (simulatedPatientMonitor params len streams fuel)).countP
        (fun m => m.survivalTime.isSome) ∧
    (cohortSimulate id pop_size params len streams fuel).survivalTimes.length ≤
      pop_size.toNat ∧
    livingPopulation pop_size.toNat
      (cohortSimulate id pop_size params len streams fuel).survivalTimes t =
      (pop_size.toNat : ℤ) ∧
    livingPopulation pop_size.toNat
      (cohortSimulate id pop_size params len streams fuel).survivalTimes t' =
      (pop_size.toNat : ℤ) -
        (cohortSimulate id pop_size params len streams fuel).survivalTimes.length ∧
    (∀ u : ℝ, 0 ≤ livingPopulation pop_size.toNat
      (cohortSimulate id pop_size params len streams fuel).survivalTimes u) := by
  set ms := (cohortPatientIds id pop_size).map
    (simulatedPatientMonitor params len streams fuel) with hms
  have hcount : (cohortSimulate id pop_size params len streams fuel).survivalTimes.length =
      ms.countP (fun m => m.survivalTime.isSome) := by
    rw [cohortSimulate, ← hms, foldl_extract_survival_count ms initCohortOutcomes]
    simp [initCohortOutcomes]
  have hle : (cohortSimulate id pop_size params len streams fuel).survivalTimes.length ≤
      pop_size.toNat := by
    rw [hcount]
    calc ms.countP (fun m => m.survivalTime.isSome) ≤ ms.length := List.countP_le_length _
    _ = pop_size.toNat := by rw [hms, List.length_map, cohortPatientIds_length]
  refine ⟨hcount, hle, ?_, ?_, ?_⟩
  · unfold livingPopulation
    rw [List.filter_eq_nil_iff.mpr]
    · simp
    · intro u hu
      simp only [decide_eq_true_eq]
      exact not_le.mpr (hbefore u hu)
  · unfold livingPopulation
    rw [List.filter_eq_self.mpr]
    intro u hu
    simp only [decide_eq_true_eq]
    exact hafter u hu
  · intro u
    unfold livingPopulation
    have h1 : ((cohortSimulate id pop_size params len streams fuel).survivalTimes.filter
        (fun v => v ≤ u)).length ≤
        (cohortSimulate id pop_size params len streams fuel).survivalTimes.length :=
      List.length_filter_le _ _
    omega

/-- Witness for C6: one patient whose sampler immediately reports the
sentinel — it is censored with no survival time, so the curve is the
constant 1. -/
theorem living_population_conservation_witness :
    (cohortSimulate 0 1 testParams 5 (fun _ _ _ => none) 1).survivalTimes.length =
      ((cohortPatientIds 0 1).map
          (simulatedPatientMonitor testParams 5 (fun _ _ _ => none) 1)).countP
        (fun m => m.survivalTime.isSome) ∧
    (cohortSimulate 0 1 testParams 5 (fun _ _ _ => none) 1).survivalTimes.length ≤
      (1 : ℤ).toNat ∧
    livingPopulation (1 : ℤ).toNat
      (cohortSimulate 0 1 testParams 5 (fun _ _ _ => none) 1).survivalTimes 0 =
      ((1 : ℤ).toNat : ℤ) ∧
    livingPopulation (1 : ℤ).toNat
      (cohortSimulate 0 1 testParams 5 (fun _ _ _ => none) 1).survivalTimes 0 =
      ((1 : ℤ).toNat : ℤ) -
        (cohortSimulate 0 1 testParams 5 (fun _ _ _ => none) 1).survivalTimes.length ∧
    (∀ u : ℝ, 0 ≤ livingPopulation (1 : ℤ).toNat
      (cohortSimulate 0 1 testParams 5 (fun _ _ _ => none) 1).survivalTimes u) :=
  living_population_conservation 0 1 testParams 5 (fun _ _ _ => none) 1 0 0
    (by
      have h : (cohortSimulate 0 1 testParams 5 (fun _ _ _ => none) 1).survivalTimes =
          [] := rfl
      rw [h]
      simp)
    (by
      have h : (cohortSimulate 0 1 testParams 5 (fun _ _ _ => none) 1).survivalTimes =
          [] := rfl
      rw [h]
      simp)

end CtHiv
